import Mathlib

/-!
Verification of the backtest client & aggregator (`streamlit_app.py`).

The file shallowly embeds the logic native to the repository:
* the buy-and-hold reduction (`run_buy_and_hold`, lines 70-101): cumulative
  sum, running maximum, drawdowns, sample standard deviation, win rate and
  risk-adjusted ratio over the monthly `stock_pnl` series;
* payload assembly (`run_strategy`, lines 55-64, the buy-and-hold call,
  line 72, and the single-run submit, lines 104-117);
* the compare-all aggregation (lines 189-214) and the ranking step
  (lines 216-231, 267-268);
* the single-run response handling (lines 119-176).

Numbers the program manipulates exactly (sums, cumulative maxima, counts,
ratios of given quantities) are modelled as rationals; the sample standard
deviation, which the program obtains through a square root, is modelled as
a real number, with pandas' NaN for series shorter than 2 represented by
`Option.none` (and the Python comparison `NaN > 0` evaluating to false).
-/

namespace Backtester

/-- Strategy identifiers of the sidebar selectbox and of `ALL_STRATEGIES`
(lines 25-34 and 181-187). -/
inductive Strategy where
  | rolling_atm_puts
  | rolling_otm_puts
  | rolling_put_spread
  | rolling_collar
  | rolling_zero_cost_collar
deriving DecidableEq

/-- Wire name of each strategy, as sent in the payload. -/
def Strategy.name : Strategy → String
  | .rolling_atm_puts => "rolling_atm_puts"
  | .rolling_otm_puts => "rolling_otm_puts"
  | .rolling_put_spread => "rolling_put_spread"
  | .rolling_collar => "rolling_collar"
  | .rolling_zero_cost_collar => "rolling_zero_cost_collar"

/-- List of all five strategies, in the order of `ALL_STRATEGIES`
(lines 181-187). -/
def ALL_STRATEGIES : List Strategy :=
  [.rolling_atm_puts, .rolling_otm_puts, .rolling_put_spread,
   .rolling_collar, .rolling_zero_cost_collar]

/-- One record of the service's `results` array; fields beyond the two the
client reads are opaque to the client and omitted. -/
structure MonthlyResult where
  stock_pnl : ℚ
  total_pnl : ℚ

/-- Column extraction `df["stock_pnl"]` (line 81). -/
def stockCol (rs : List MonthlyResult) : List ℚ := rs.map (·.stock_pnl)

/-- Cumulative sums continuing from a running accumulator. -/
def cumsumFrom (acc : ℚ) : List ℚ → List ℚ
  | [] => []
  | x :: xs => (acc + x) :: cumsumFrom (acc + x) xs

/-- Pandas `Series.cumsum` (line 84). -/
def cumsum (xs : List ℚ) : List ℚ := cumsumFrom 0 xs

/-- Running maxima continuing from an accumulated maximum. -/
def cummaxFrom (acc : ℚ) : List ℚ → List ℚ
  | [] => []
  | x :: xs => max acc x :: cummaxFrom (max acc x) xs

/-- Pandas `Series.cummax` (line 85). -/
def cummax : List ℚ → List ℚ
  | [] => []
  | x :: xs => x :: cummaxFrom x xs

/-- Elementwise `running_max - cum_stock` (line 86). -/
def drawdowns (xs : List ℚ) : List ℚ :=
  List.zipWith (· - ·) (cummax (cumsum xs)) (cumsum xs)

/-- Maximum of a nonempty series, as in `Series.max`. Pandas yields NaN on
an empty series; that case is mapped to 0 here and every theorem below
restricts to nonempty series, the only ones the dashboard renders. -/
def listMax : List ℚ → ℚ
  | [] => 0
  | x :: xs => xs.foldl max x

/-- Line 87: `max_drawdown = drawdowns.max()`. -/
def max_drawdown (xs : List ℚ) : ℚ := listMax (drawdowns xs)

/-- Line 83: `total_stock_pl = sum(monthly_stock)`. -/
def total_stock_pl (xs : List ℚ) : ℚ := xs.sum

/-- Pandas `Series.mean` (line 89). -/
def seriesMean (xs : List ℚ) : ℚ := xs.sum / (xs.length : ℚ)

/-- Line 97: the win rate `(df["stock_pnl"] > 0).mean() * 100`, i.e. the
mean of the 0/1 indicator series scaled to percent. -/
def win_rate_percent (xs : List ℚ) : ℚ :=
  seriesMean (xs.map (fun x => if 0 < x then (1 : ℚ) else 0)) * 100

/-- Square of pandas' sample standard deviation (ddof = 1):
the sum of squared deviations from the mean over `n - 1`. -/
def sampleVar (xs : List ℚ) : ℚ :=
  (xs.map (fun x => (x - seriesMean xs) ^ 2)).sum / ((xs.length : ℚ) - 1)

/-- Line 88: `vol = df["stock_pnl"].std()`, the sample standard deviation
for series of length at least 2, NaN (`none`) otherwise. -/
noncomputable def std? (xs : List ℚ) : Option ℝ :=
  if 2 ≤ xs.length then some (Real.sqrt (sampleVar xs)) else none

/-- Line 90: `risk_adj = avg_monthly / vol if vol > 0 else 0`. When `vol`
is NaN the Python comparison `vol > 0` is false, so the `else` branch is
taken; the `none` case mirrors that. -/
noncomputable def risk_adjusted (xs : List ℚ) : ℝ :=
  match std? xs with
  | some v => if 0 < v then (seriesMean xs : ℝ) / v else 0
  | none => 0

/-- Lines 210-213: the comparison-row ratio
`avg_monthly_strategy_pl / monthly_volatility if monthly_volatility > 0
else 0`, both operands supplied by the service summary. -/
def comparison_risk_adjusted (avg vol : ℚ) : ℚ :=
  if 0 < vol then avg / vol else 0

/-! Spec-side restatement of the drawdown formula: the drawdown at month
`i` is the running maximum of the cumulative series up to `i` minus the
cumulative value at `i`, and the max drawdown maximizes this over all
months. These definitions follow the specification's words and are proved
equal to the code-derived `max_drawdown` above. -/

/-- Cumulative `stock_pnl` at month `i` (0-based): the sum of the first
`i + 1` values. -/
def cumAt (xs : List ℚ) (i : ℕ) : ℚ := (xs.take (i + 1)).sum

/-- Running maximum of the cumulative series at month `i`. -/
def runMaxAt (xs : List ℚ) (i : ℕ) : ℚ :=
  listMax ((List.range (i + 1)).map (cumAt xs))

/-- Drawdown at month `i` per the documented formula
`running_max(cumulative) - cumulative`. -/
def specDrawdownAt (xs : List ℚ) (i : ℕ) : ℚ := runMaxAt xs i - cumAt xs i

/-- Max drawdown per the specification: the month-wise drawdown maximized
over all months. -/
def spec_max_drawdown (xs : List ℚ) : ℚ :=
  listMax ((List.range xs.length).map (specDrawdownAt xs))

/-! Supporting lemmas for the drawdown refinement. -/

theorem cumsumFrom_length (acc : ℚ) (xs : List ℚ) :
    (cumsumFrom acc xs).length = xs.length := by
  induction xs generalizing acc with
  | nil => rfl
  | cons x xs ih => simp [cumsumFrom, ih]

theorem cumsum_length (xs : List ℚ) : (cumsum xs).length = xs.length :=
  cumsumFrom_length 0 xs

theorem cummaxFrom_length (acc : ℚ) (l : List ℚ) :
    (cummaxFrom acc l).length = l.length := by
  induction l generalizing acc with
  | nil => rfl
  | cons x l ih => simp [cummaxFrom, ih]

theorem cummax_length (l : List ℚ) : (cummax l).length = l.length := by
  cases l with
  | nil => rfl
  | cons x l => simp [cummax, cummaxFrom_length]

theorem cumsumFrom_getElem? (xs : List ℚ) (acc : ℚ) (i : ℕ) (h : i < xs.length) :
    (cumsumFrom acc xs)[i]? = some (acc + (xs.take (i + 1)).sum) := by
  induction xs generalizing acc i with
  | nil => simp at h
  | cons x xs ih =>
    cases i with
    | zero => simp [cumsumFrom]
    | succ i =>
      have hi : i < xs.length := by simpa using h
      simp only [cumsumFrom, List.getElem?_cons_succ, List.take_succ_cons, List.sum_cons]
      rw [ih (acc + x) i hi, add_assoc]

theorem cumsum_getElem? (xs : List ℚ) (i : ℕ) (h : i < xs.length) :
    (cumsum xs)[i]? = some (cumAt xs i) := by
  rw [cumsum, cumsumFrom_getElem? xs 0 i h, cumAt, zero_add]

theorem cummaxFrom_getElem? (l : List ℚ) (acc : ℚ) (i : ℕ) (h : i < l.length) :
    (cummaxFrom acc l)[i]? = some (List.foldl max acc (l.take (i + 1))) := by
  induction l generalizing acc i with
  | nil => simp at h
  | cons x l ih =>
    cases i with
    | zero => simp [cummaxFrom]
    | succ i =>
      have hi : i < l.length := by simpa using h
      simp only [cummaxFrom, List.getElem?_cons_succ, List.take_succ_cons, List.foldl_cons]
      exact ih (max acc x) i hi

theorem cummax_getElem? (l : List ℚ) (i : ℕ) (h : i < l.length) :
    (cummax l)[i]? = some (listMax (l.take (i + 1))) := by
  cases l with
  | nil => simp at h
  | cons x l =>
    cases i with
    | zero => simp [cummax, listMax]
    | succ i =>
      have hi : i < l.length := by simpa using h
      simp only [cummax, List.getElem?_cons_succ, List.take_succ_cons]
      rw [cummaxFrom_getElem? l x i hi]
      rfl

theorem cumsum_take (xs : List ℚ) (k : ℕ) (hk : k ≤ xs.length) :
    (cumsum xs).take k = (List.range k).map (cumAt xs) := by
  apply List.ext_getElem?
  intro j
  by_cases hj : j < k
  · rw [List.getElem?_take, if_pos hj, cumsum_getElem? xs j (lt_of_lt_of_le hj hk),
      List.getElem?_map, List.getElem?_range hj]
    rfl
  · have h1 : ((cumsum xs).take k).length ≤ j := by
      simp [cumsum_length]
      omega
    have h2 : ((List.range k).map (cumAt xs)).length ≤ j := by
      simp
      omega
    rw [List.getElem?_eq_none h1, List.getElem?_eq_none h2]

theorem drawdowns_eq (xs : List ℚ) :
    drawdowns xs = (List.range xs.length).map (specDrawdownAt xs) := by
  apply List.ext_getElem?
  intro i
  by_cases hi : i < xs.length
  · rw [drawdowns, List.getElem?_zipWith', cummax_getElem? _ i (by rw [cumsum_length]; exact hi),
      cumsum_getElem? xs i hi, List.getElem?_map, List.getElem?_range hi]
    simp only [Option.map_some', Option.some_bind]
    rw [specDrawdownAt, runMaxAt, cumsum_take xs (i + 1) hi]
  · have h1 : (drawdowns xs).length ≤ i := by
      simp [drawdowns, cummax_length, cumsum_length]
      omega
    have h2 : ((List.range xs.length).map (specDrawdownAt xs)).length ≤ i := by
      simp
      omega
    rw [List.getElem?_eq_none h1, List.getElem?_eq_none h2]

theorem max_drawdown_eq_spec (xs : List ℚ) :
    max_drawdown xs = spec_max_drawdown xs := by
  rw [max_drawdown, drawdowns_eq, spec_max_drawdown]

theorem le_foldl_max (l : List ℚ) (acc : ℚ) : acc ≤ List.foldl max acc l := by
  induction l generalizing acc with
  | nil => simp
  | cons x l ih => exact le_trans (le_max_left acc x) (ih (max acc x))

theorem drawdowns_cons_zero (x : ℚ) (xs : List ℚ) :
    drawdowns (x :: xs) =
      0 :: List.zipWith (· - ·) (cummaxFrom x (cumsumFrom x xs)) (cumsumFrom x xs) := by
  simp [drawdowns, cumsum, cumsumFrom, cummax, sub_self]

theorem max_drawdown_nonneg (xs : List ℚ) (h : xs ≠ []) : 0 ≤ max_drawdown xs := by
  cases xs with
  | nil => exact absurd rfl h
  | cons x xs =>
    rw [max_drawdown, drawdowns_cons_zero, listMax]
    exact le_foldl_max _ 0

theorem max_drawdown_singleton (x : ℚ) : max_drawdown [x] = 0 := by
  simp [max_drawdown, drawdowns, cumsum, cumsumFrom, cummax, cummaxFrom, listMax, sub_self]

/-! Supporting lemmas for win rate and the degenerate-volatility cases. -/

theorem indicator_sum (xs : List ℚ) :
    (xs.map (fun x => if 0 < x then (1 : ℚ) else 0)).sum =
      (xs.countP (fun x => decide (0 < x)) : ℚ) := by
  induction xs with
  | nil => simp
  | cons x xs ih =>
    by_cases hx : 0 < x
    · simp [List.countP_cons, hx, ih]
      ring
    · simp [List.countP_cons, hx, ih]

theorem win_rate_eq_fraction (xs : List ℚ) :
    win_rate_percent xs =
      ((xs.countP (fun x => decide (0 < x)) : ℚ) / (xs.length : ℚ)) * 100 := by
  rw [win_rate_percent, seriesMean, indicator_sum, List.length_map]

theorem win_rate_all_pos (xs : List ℚ) (hne : xs ≠ []) (h : ∀ x ∈ xs, 0 < x) :
    win_rate_percent xs = 100 := by
  rw [win_rate_eq_fraction]
  have hcount : xs.countP (fun x => decide (0 < x)) = xs.length :=
    List.countP_eq_length.mpr (fun a ha => by simpa using h a ha)
  have hlen : (xs.length : ℚ) ≠ 0 := by
    simpa using List.length_pos.mpr hne |>.ne'
  rw [hcount, div_self hlen, one_mul]

theorem seriesMean_const (xs : List ℚ) (c : ℚ) (hne : xs ≠ []) (h : ∀ x ∈ xs, x = c) :
    seriesMean xs = c := by
  have hsum : xs.sum = xs.length • c := List.sum_eq_card_nsmul xs c h
  have hlen : (xs.length : ℚ) ≠ 0 := by
    simpa using List.length_pos.mpr hne |>.ne'
  rw [seriesMean, hsum, nsmul_eq_mul, mul_comm, mul_div_assoc, div_self hlen, mul_one]

theorem sampleVar_const (xs : List ℚ) (c : ℚ) (hne : xs ≠ []) (h : ∀ x ∈ xs, x = c) :
    sampleVar xs = 0 := by
  rw [sampleVar]
  have hmap : xs.map (fun x => (x - seriesMean xs) ^ 2) = xs.map (fun _ => 0) := by
    apply List.map_congr_left
    intro a ha
    rw [h a ha, seriesMean_const xs c hne h, sub_self]
    ring
  rw [hmap]
  simp

theorem risk_adjusted_single (xs : List ℚ) (h : xs.length = 1) :
    risk_adjusted xs = 0 := by
  have hn : std? xs = none := by rw [std?, if_neg]; omega
  simp [risk_adjusted, hn]

theorem risk_adjusted_const (xs : List ℚ) (c : ℚ) (hne : xs ≠ []) (h : ∀ x ∈ xs, x = c) :
    risk_adjusted xs = 0 := by
  by_cases hlen : 2 ≤ xs.length
  · have hstd : std? xs = some 0 := by
      rw [std?, if_pos hlen, sampleVar_const xs c hne h]
      norm_num
    simp [risk_adjusted, hstd]
  · have hn : std? xs = none := by rw [std?, if_neg hlen]
    simp [risk_adjusted, hn]

/-! Claim theorems on the summary metrics. -/

/-- C1: summarizing the fixture monthly series [100, -50, 200, -20] yields
`total_stock_pl = 230`, `win_rate_percent = 50`, the cumulative series
[100, 50, 250, 230], and a max drawdown equal to the
running-max-minus-cumulative formula on that cumulative series; the value
of that formula here is 50. -/
theorem C1_fixture_summary :
    total_stock_pl [100, -50, 200, -20] = 230 ∧
    win_rate_percent [100, -50, 200, -20] = 50 ∧
    cumsum [100, -50, 200, -20] = [100, 50, 250, 230] ∧
    max_drawdown [100, -50, 200, -20] = spec_max_drawdown [100, -50, 200, -20] ∧
    max_drawdown [100, -50, 200, -20] = 50 := by
  refine ⟨by norm_num [total_stock_pl], by norm_num [win_rate_percent, seriesMean],
    by norm_num [cumsum, cumsumFrom], max_drawdown_eq_spec _, ?_⟩
  norm_num [max_drawdown, drawdowns, cumsum, cumsumFrom, cummax, cummaxFrom, listMax, max_def]

/-- C3: for every nonempty monthly series, the buy-and-hold max drawdown
equals the maximum over all months of running-max-of-cumulative minus
cumulative, is nonnegative, and equals 0 on every single-element series. -/
theorem C3_max_drawdown_formula (xs : List ℚ) (h : xs ≠ []) :
    max_drawdown xs = spec_max_drawdown xs ∧
    0 ≤ max_drawdown xs ∧
    ∀ x : ℚ, max_drawdown [x] = 0 :=
  ⟨max_drawdown_eq_spec xs, max_drawdown_nonneg xs h, max_drawdown_singleton⟩

/-- Witness for C3 at the concrete series [100, -50]. -/
theorem C3_max_drawdown_formula_witness :
    ([100, -50] : List ℚ) ≠ [] ∧
    max_drawdown [100, -50] = spec_max_drawdown [100, -50] ∧
    0 ≤ max_drawdown [100, -50] ∧
    max_drawdown [7] = 0 :=
  ⟨by simp, (C3_max_drawdown_formula [100, -50] (by simp)).1,
    (C3_max_drawdown_formula [100, -50] (by simp)).2.1,
    (C3_max_drawdown_formula [100, -50] (by simp)).2.2 7⟩

/-- C4: for every nonempty monthly series, the win rate is the count of
strictly positive months over the number of months, scaled to percent, and
it equals 100 whenever every month is strictly positive. -/
theorem C4_win_rate (xs : List ℚ) (h : xs ≠ []) :
    win_rate_percent xs =
      ((xs.countP (fun x => decide (0 < x)) : ℚ) / (xs.length : ℚ)) * 100 ∧
    ((∀ x ∈ xs, 0 < x) → win_rate_percent xs = 100) :=
  ⟨win_rate_eq_fraction xs, win_rate_all_pos xs h⟩

/-- Witness for C4 at the concrete series [3, 4]. -/
theorem C4_win_rate_witness :
    ([3, 4] : List ℚ) ≠ [] ∧
    win_rate_percent [3, 4] =
      ((([3, 4] : List ℚ).countP (fun x => decide (0 < x)) : ℚ) / 2) * 100 ∧
    win_rate_percent [3, 4] = 100 :=
  ⟨by simp, (C4_win_rate [3, 4] (by simp)).1,
    (C4_win_rate [3, 4] (by simp)).2 (by intro x hx; fin_cases hx <;> norm_num)⟩

/-- C2: the risk-adjusted ratio is mean over volatility when the
volatility is defined and strictly positive, and 0 in every other case:
when the volatility is nonpositive, when it is NaN (series shorter than
2, in particular a single month), and when all values are equal; the
comparison rows use the same guarded quotient of the service-supplied
summary fields. -/
theorem C2_risk_adjusted_total (xs : List ℚ) :
    (∀ v : ℝ, std? xs = some v → 0 < v → risk_adjusted xs = (seriesMean xs : ℝ) / v) ∧
    (∀ v : ℝ, std? xs = some v → ¬ 0 < v → risk_adjusted xs = 0) ∧
    (std? xs = none → risk_adjusted xs = 0) ∧
    (xs.length = 1 → risk_adjusted xs = 0) ∧
    (∀ c : ℚ, xs ≠ [] → (∀ x ∈ xs, x = c) → risk_adjusted xs = 0) ∧
    (∀ avg vol : ℚ, comparison_risk_adjusted avg vol = if 0 < vol then avg / vol else 0) := by
  refine ⟨?_, ?_, ?_, risk_adjusted_single xs, ?_, fun avg vol => rfl⟩
  · intro v hv hpos
    simp [risk_adjusted, hv, hpos]
  · intro v hv hpos
    simp [risk_adjusted, hv, hpos]
  · intro hn
    simp [risk_adjusted, hn]
  · intro c hne hconst
    exact risk_adjusted_const xs c hne hconst

/-- Witness for C2: the all-equal two-month series [3, 3] and the
single-month series [7] both get ratio 0, and the comparison-row ratio
evaluates to the guarded quotient on concrete summary values. -/
theorem C2_risk_adjusted_total_witness :
    risk_adjusted [3, 3] = 0 ∧
    risk_adjusted [7] = 0 ∧
    comparison_risk_adjusted 6 2 = 3 ∧
    comparison_risk_adjusted 6 0 = 0 := by
  refine ⟨(C2_risk_adjusted_total [3, 3]).2.2.2.2.1 3 (by simp) ?_,
    (C2_risk_adjusted_total [7]).2.2.2.1 rfl, ?_, ?_⟩
  · intro x hx
    rcases List.mem_cons.mp hx with h | h
    · exact h
    · simpa using h
  · rw [(C2_risk_adjusted_total []).2.2.2.2.2 6 2]
    norm_num
  · rw [(C2_risk_adjusted_total []).2.2.2.2.2 6 0]
    norm_num

/-! Payload assembly. The sidebar holds four optional strategy parameters
(lines 37-52), at most one of which is set; `run_strategy` (lines 55-64)
builds the request body, defaulting the selected strategy's parameter with
the Python `or` idiom when it is unset. -/

/-- Request body of the backtest endpoint: `ticker`, `shares`, `strategy`,
and at most one strategy-specific parameter (absent fields are `none`). -/
structure Payload where
  ticker : String
  shares : ℕ
  strategy : Strategy
  otm_percent : Option ℚ := none
  spread_width_percent : Option ℚ := none
  upside_cap_percent : Option ℚ := none
  coverage_ratio : Option ℚ := none

/-- Python's `x or d` on an optional float: `None` and `0.0` are falsy and
give the default. -/
def pyOr (x : Option ℚ) (d : ℚ) : ℚ :=
  match x with
  | some v => if v = 0 then d else v
  | none => d

/-- Payload built by `run_strategy` (lines 55-64): the base fields plus the
selected strategy's parameter, defaulted via `or` (otm 5, spread 5,
cap 10, coverage 1.0). -/
def run_strategy_payload (t : String) (n : ℕ) (s : Strategy)
    (otm spread cap cov : Option ℚ) : Payload :=
  let base : Payload := { ticker := t, shares := n, strategy := s }
  match s with
  | .rolling_otm_puts => { base with otm_percent := some (pyOr otm 5) }
  | .rolling_put_spread => { base with spread_width_percent := some (pyOr spread 5) }
  | .rolling_collar => { base with upside_cap_percent := some (pyOr cap 10) }
  | .rolling_zero_cost_collar => { base with coverage_ratio := some (pyOr cov 1) }
  | .rolling_atm_puts => base

/-- Payload of the buy-and-hold baseline call (line 72): always
`rolling_atm_puts`, no optional parameter. -/
def run_buy_and_hold_payload (t : String) (n : ℕ) : Payload :=
  { ticker := t, shares := n, strategy := .rolling_atm_puts }

/-- Payload of the single-run submit (lines 105-117): each optional
parameter is added exactly when the sidebar set it (is not `None`). -/
def single_run_payload (t : String) (n : ℕ) (s : Strategy)
    (otm spread cap cov : Option ℚ) : Payload :=
  { ticker := t, shares := n, strategy := s, otm_percent := otm,
    spread_width_percent := spread, upside_cap_percent := cap,
    coverage_ratio := cov }

/-- Line 22: `shares = contracts * 100`; the number-input widget
(lines 15-21) clamps `contracts` to the integers 1..10. -/
def sharesOf (contracts : ℕ) : ℕ := contracts * 100

/-- C7: with the optional parameter unset, `run_strategy` defaults
`otm_percent` to 5 for `rolling_otm_puts`, `spread_width_percent` to 5 for
`rolling_put_spread`, `upside_cap_percent` to 10 for `rolling_collar`,
`coverage_ratio` to 1.0 for `rolling_zero_cost_collar`, and adds no
strategy-specific field for `rolling_atm_puts`. -/
theorem C7_parameter_defaults (t : String) (n : ℕ) :
    (run_strategy_payload t n .rolling_otm_puts none none none none).otm_percent = some 5 ∧
    (run_strategy_payload t n .rolling_put_spread none none none none).spread_width_percent = some 5 ∧
    (run_strategy_payload t n .rolling_collar none none none none).upside_cap_percent = some 10 ∧
    (run_strategy_payload t n .rolling_zero_cost_collar none none none none).coverage_ratio = some 1 ∧
    (run_strategy_payload t n .rolling_atm_puts none none none none).otm_percent = none ∧
    (run_strategy_payload t n .rolling_atm_puts none none none none).spread_width_percent = none ∧
    (run_strategy_payload t n .rolling_atm_puts none none none none).upside_cap_percent = none ∧
    (run_strategy_payload t n .rolling_atm_puts none none none none).coverage_ratio = none :=
  ⟨rfl, rfl, rfl, rfl, rfl, rfl, rfl, rfl⟩

/-- C10: for a contract count between 1 and 10, the shares value sent in
every payload (strategy run, buy-and-hold baseline, single-run submit) is
`contracts * 100`: a multiple of 100 between 100 and 1000. -/
theorem C10_shares_invariant (c : ℕ) (h1 : 1 ≤ c) (h2 : c ≤ 10) :
    (100 ∣ sharesOf c ∧ 100 ≤ sharesOf c ∧ sharesOf c ≤ 1000) ∧
    (∀ t s otm spread cap cov,
      (run_strategy_payload t (sharesOf c) s otm spread cap cov).shares = sharesOf c) ∧
    (∀ t, (run_buy_and_hold_payload t (sharesOf c)).shares = sharesOf c) ∧
    (∀ t s otm spread cap cov,
      (single_run_payload t (sharesOf c) s otm spread cap cov).shares = sharesOf c) := by
  refine ⟨⟨⟨c, by rw [sharesOf]; ring⟩, ?_, ?_⟩, ?_, fun t => rfl,
    fun t s otm spread cap cov => rfl⟩
  · simp only [sharesOf]; omega
  · simp only [sharesOf]; omega
  · intro t s otm spread cap cov
    cases s <;> rfl

/-- Witness for C10 at 2 contracts, the widget's default. -/
theorem C10_shares_invariant_witness :
    1 ≤ 2 ∧ 2 ≤ 10 ∧
    (100 ∣ sharesOf 2 ∧ 100 ≤ sharesOf 2 ∧ sharesOf 2 ≤ 1000) ∧
    (run_strategy_payload "SPY" (sharesOf 2) .rolling_collar none none none none).shares =
      sharesOf 2 ∧
    (run_buy_and_hold_payload "SPY" (sharesOf 2)).shares = sharesOf 2 ∧
    (single_run_payload "SPY" (sharesOf 2) .rolling_atm_puts none none none none).shares =
      sharesOf 2 :=
  ⟨by omega, by omega, (C10_shares_invariant 2 (by omega) (by omega)).1,
    (C10_shares_invariant 2 (by omega) (by omega)).2.1 "SPY" .rolling_collar none none none none,
    (C10_shares_invariant 2 (by omega) (by omega)).2.2.1 "SPY",
    (C10_shares_invariant 2 (by omega) (by omega)).2.2.2 "SPY" .rolling_atm_puts
      none none none none⟩

/-! Single-run response handling (lines 119-176). -/

/-- JSON body of a 200 response: a status message, the `results` array
when present, and the optional `summary` (opaque to the error-handling
branch). -/
structure RunData where
  status_msg : String
  results : Option (List MonthlyResult)

/-- An HTTP response: status code, raw body text, parsed JSON body. -/
structure RunResponse where
  status : ℕ
  text : String
  data : RunData

/-- Outcome of the single-run submit: results rendered, the
"No results returned!" notice (line 174), or the
`Error {status_code}: {text}` message (line 176). -/
inductive RunOutcome where
  | rendered (results : List MonthlyResult)
  | noResults
  | httpError (code : ℕ) (body : String)

/-- The single-run branch structure (lines 121-176): on status 200 render
the results if present, otherwise report the generic notice; on any other
status report the code and the raw body. One request, no retry. -/
def handleRun (resp : RunResponse) : RunOutcome :=
  if resp.status = 200 then
    match resp.data.results with
    | some rs => RunOutcome.rendered rs
    | none => RunOutcome.noResults
  else RunOutcome.httpError resp.status resp.text

/-- C8: a non-200 response yields an error carrying the status code and
the raw body verbatim; a 200 response missing `results` yields the
generic no-results notice; these two outcomes are distinct constructors,
and `handleRun` is a total function (no unhandled fault). -/
theorem C8_submit_outcomes (resp : RunResponse) :
    (resp.status ≠ 200 → handleRun resp = RunOutcome.httpError resp.status resp.text) ∧
    (resp.status = 200 → resp.data.results = none → handleRun resp = RunOutcome.noResults) ∧
    (∀ c b, RunOutcome.httpError c b ≠ RunOutcome.noResults) := by
  refine ⟨?_, ?_, fun c b h => RunOutcome.noConfusion h⟩
  · intro h
    simp [handleRun, h]
  · intro h hr
    simp [handleRun, h, hr]

/-- Witness for C8: a simulated 500 response and a 200 response without
`results`. -/
theorem C8_submit_outcomes_witness :
    (500 : ℕ) ≠ 200 ∧
    handleRun ⟨500, "Internal Server Error", ⟨"", none⟩⟩ =
      RunOutcome.httpError 500 "Internal Server Error" ∧
    handleRun ⟨200, "body", ⟨"ok", none⟩⟩ = RunOutcome.noResults ∧
    RunOutcome.httpError 500 "Internal Server Error" ≠ RunOutcome.noResults :=
  ⟨by omega, (C8_submit_outcomes ⟨500, "Internal Server Error", ⟨"", none⟩⟩).1 (by decide),
    (C8_submit_outcomes ⟨200, "body", ⟨"ok", none⟩⟩).2.1 rfl rfl,
    (C8_submit_outcomes ⟨200, "body", ⟨"ok", none⟩⟩).2.2 500 "Internal Server Error"⟩

/-! The compare-all flow (lines 189-214). -/

/-- Fields of the service summary that the comparison rows read
(lines 204-213). -/
structure Summary where
  total_strategy_pl : ℚ
  total_stock_pl : ℚ
  total_hedge_pl : ℚ
  win_rate_percent : ℚ
  max_drawdown : ℚ
  monthly_volatility : ℚ
  avg_monthly_strategy_pl : ℚ

/-- Body returned by `run_strategy` on status 200; `run_strategy` itself
returns `none` on any other status (line 67), and the compare loop
additionally requires `summary` to be present (line 200). -/
structure RespData where
  summary : Option Summary

/-- One row of the comparison table. -/
structure CompRow where
  strategy : String
  final_pnl : ℚ
  buy_hold_pnl : ℚ
  hedge_pnl : ℚ
  win_rate : ℚ
  max_dd : ℚ
  volatility : ℚ
  risk_adj : ℚ

/-- Comparison row built from a strategy's summary (lines 202-214). -/
def mkCompRow (s : Strategy) (m : Summary) : CompRow :=
  { strategy := s.name, final_pnl := m.total_strategy_pl,
    buy_hold_pnl := m.total_stock_pl, hedge_pnl := m.total_hedge_pl,
    win_rate := m.win_rate_percent, max_dd := m.max_drawdown,
    volatility := m.monthly_volatility,
    risk_adj := comparison_risk_adjusted m.avg_monthly_strategy_pl m.monthly_volatility }

/-- The compare-all aggregation (lines 190-214): the buy-and-hold row
first when its call succeeded, then one row per strategy whose call
returned status 200 with a `summary`; failed or summary-less calls are
skipped with no partial row. -/
def compareAll (bh : Option CompRow) (svc : Strategy → Option RespData) : List CompRow :=
  (match bh with | some r => [r] | none => []) ++
    ALL_STRATEGIES.filterMap (fun s =>
      match svc s with
      | some d => d.summary.map (mkCompRow s)
      | none => none)

theorem compareAll_all_ok (bh : CompRow) (f : Strategy → Summary) :
    compareAll (some bh) (fun s => some ⟨some (f s)⟩) =
      bh :: ALL_STRATEGIES.map (fun s => mkCompRow s (f s)) ∧
    (compareAll (some bh) (fun s => some ⟨some (f s)⟩)).length = 6 := by
  constructor
  · simp [compareAll, ALL_STRATEGIES]
  · simp [compareAll, ALL_STRATEGIES]

theorem compareAll_one_fails (bh : CompRow) (f : Strategy → Summary)
    (s₀ : Strategy) (fr : Option RespData)
    (hfr : fr = none ∨ fr = some ⟨none⟩) :
    compareAll (some bh) (fun s => if s = s₀ then fr else some ⟨some (f s)⟩) =
      bh :: (ALL_STRATEGIES.filter (fun s => s ≠ s₀)).map (fun s => mkCompRow s (f s)) ∧
    (compareAll (some bh) (fun s => if s = s₀ then fr else some ⟨some (f s)⟩)).length = 5 := by
  rcases hfr with rfl | rfl <;>
    cases s₀ <;>
    constructor <;>
    simp [compareAll, ALL_STRATEGIES, List.filterMap_cons, List.filter]

/-- C5: when the buy-and-hold call and all five strategy calls succeed
with summaries, the comparison list is exactly the buy-and-hold row
followed by the five strategy rows (6 rows); when exactly one strategy
call fails — by non-200 status or by a missing `summary` — only that
strategy's row is dropped, leaving 5 rows with the others unchanged and
the buy-and-hold row still first. -/
theorem C5_compare_row_counts (bh : CompRow) (f : Strategy → Summary) :
    (compareAll (some bh) (fun s => some ⟨some (f s)⟩) =
        bh :: ALL_STRATEGIES.map (fun s => mkCompRow s (f s)) ∧
      (compareAll (some bh) (fun s => some ⟨some (f s)⟩)).length = 6) ∧
    ∀ s₀ fr, fr = none ∨ fr = some ⟨none⟩ →
      compareAll (some bh) (fun s => if s = s₀ then fr else some ⟨some (f s)⟩) =
        bh :: (ALL_STRATEGIES.filter (fun s => s ≠ s₀)).map (fun s => mkCompRow s (f s)) ∧
      (compareAll (some bh) (fun s => if s = s₀ then fr else some ⟨some (f s)⟩)).length = 5 :=
  ⟨compareAll_all_ok bh f, fun s₀ fr hfr => compareAll_one_fails bh f s₀ fr hfr⟩

/-- Witness for C5: constant summaries, with `rolling_put_spread` failing
by non-200 status. -/
theorem C5_compare_row_counts_witness :
    ((none : Option RespData) = none ∨ (none : Option RespData) = some ⟨none⟩) ∧
    (compareAll (some ⟨"Buy & Hold", 0, 0, 0, 0, 0, 0, 0⟩)
        (fun _ => some ⟨some ⟨1, 2, 3, 4, 5, 6, 7⟩⟩)).length = 6 ∧
    (compareAll (some ⟨"Buy & Hold", 0, 0, 0, 0, 0, 0, 0⟩)
        (fun s => if s = Strategy.rolling_put_spread then none
                  else some ⟨some ⟨1, 2, 3, 4, 5, 6, 7⟩⟩)).length = 5 :=
  ⟨Or.inl rfl,
    (C5_compare_row_counts ⟨"Buy & Hold", 0, 0, 0, 0, 0, 0, 0⟩
      (fun _ => ⟨1, 2, 3, 4, 5, 6, 7⟩)).1.2,
    ((C5_compare_row_counts ⟨"Buy & Hold", 0, 0, 0, 0, 0, 0, 0⟩
      (fun _ => ⟨1, 2, 3, 4, 5, 6, 7⟩)).2 Strategy.rolling_put_spread none (Or.inl rfl)).2⟩

/-! The ranking step (lines 216-231, 267-268). The comparison frame holds
at most 6 rows; on arrays below 16 elements numpy's default argsort runs
plain insertion sort, which is stable, and for a descending sort pandas'
`nargsort` reverses the input before and the indexer after the ascending
argsort, which restores first-seen order among tied keys. The net effect
on these frames is the stable descending sort by `risk_adj` modelled
below; `iloc[0]` is its head. -/

/-- Insert a row into a descending-sorted list, before any tied row
(ties keep first-seen order because `foldr` inserts earlier rows later). -/
def insDesc (r : CompRow) : List CompRow → List CompRow
  | [] => [r]
  | x :: xs => if r.risk_adj < x.risk_adj then x :: insDesc r xs else r :: x :: xs

/-- Stable descending sort by `risk_adj`, modelling
`df_comp.sort_values("Risk-Adjusted", ascending=False)` (line 230). -/
def sortDesc (rows : List CompRow) : List CompRow := rows.foldr insDesc []

/-- The guarded ranking step (lines 216-231 and 267-268): on an empty row
list the code shows the error message and never sorts; otherwise `best`
is `iloc[0]` of the descending sort. -/
def rankStep (rows : List CompRow) : Except String CompRow :=
  match sortDesc rows with
  | [] => Except.error "No strategy results returned."
  | r :: _ => Except.ok r

/-- Spec-side selector: the earliest row whose `risk_adj` is maximal
(ties go to the earlier row). -/
def firstMax : List CompRow → Option CompRow
  | [] => none
  | r :: rs =>
    match firstMax rs with
    | none => some r
    | some b => if r.risk_adj < b.risk_adj then some b else some r

theorem insDesc_head? (r : CompRow) (l : List CompRow) :
    (insDesc r l).head? =
      some (match l.head? with
            | none => r
            | some x => if r.risk_adj < x.risk_adj then x else r) := by
  cases l with
  | nil => rfl
  | cons x xs =>
    by_cases hx : r.risk_adj < x.risk_adj <;> simp [insDesc, hx]

theorem sortDesc_head? (rows : List CompRow) :
    (sortDesc rows).head? = firstMax rows := by
  induction rows with
  | nil => rfl
  | cons r rs ih =>
    have hstep : sortDesc (r :: rs) = insDesc r (sortDesc rs) := rfl
    rw [hstep, insDesc_head?, ih, firstMax]
    cases firstMax rs with
    | none => rfl
    | some b => by_cases hb : r.risk_adj < b.risk_adj <;> simp [hb]

theorem firstMax_none (rows : List CompRow) (h : firstMax rows = none) : rows = [] := by
  cases rows with
  | nil => rfl
  | cons r rs =>
    rw [firstMax] at h
    cases hfm : firstMax rs with
    | none => rw [hfm] at h; simp at h
    | some b => rw [hfm] at h; by_cases hb : r.risk_adj < b.risk_adj <;> simp [hb] at h

theorem firstMax_spec (rows : List CompRow) (r : CompRow) (h : firstMax rows = some r) :
    r ∈ rows ∧ (∀ x ∈ rows, x.risk_adj ≤ r.risk_adj) ∧
    ∃ i : ℕ, rows[i]? = some r ∧
      ∀ j < i, ∀ x, rows[j]? = some x → x.risk_adj < r.risk_adj := by
  induction rows generalizing r with
  | nil => simp [firstMax] at h
  | cons a rest ih =>
    rw [firstMax] at h
    cases hfm : firstMax rest with
    | none =>
      rw [hfm] at h
      simp only [Option.some.injEq] at h
      subst h
      have hrest : rest = [] := firstMax_none rest hfm
      subst hrest
      refine ⟨List.mem_singleton_self a, ?_, 0, rfl, ?_⟩
      · intro x hx
        rw [List.mem_singleton] at hx
        subst hx
        exact le_refl _
      · intro j hj x hx
        omega
    | some b =>
      rw [hfm] at h
      change (if a.risk_adj < b.risk_adj then some b else some a) = some r at h
      obtain ⟨hbmem, hbmax, i, hidx, hstrict⟩ := ih b hfm
      by_cases hab : a.risk_adj < b.risk_adj
      · rw [if_pos hab] at h
        simp only [Option.some.injEq] at h
        subst h
        refine ⟨List.mem_cons_of_mem a hbmem, ?_, i + 1, by simpa using hidx, ?_⟩
        · intro x hx
          rcases List.mem_cons.mp hx with rfl | hx
          · exact le_of_lt hab
          · exact hbmax x hx
        · intro j hj x hx
          cases j with
          | zero =>
            simp only [List.getElem?_cons_zero, Option.some.injEq] at hx
            subst hx
            exact hab
          | succ j =>
            simp only [List.getElem?_cons_succ] at hx
            exact hstrict j (by omega) x hx
      · rw [if_neg hab] at h
        simp only [Option.some.injEq] at h
        subst h
        refine ⟨List.mem_cons_self a rest, ?_, 0, by simp, ?_⟩
        · intro x hx
          rcases List.mem_cons.mp hx with rfl | hx
          · exact le_refl _
          · exact le_trans (hbmax x hx) (le_of_not_lt hab)
        · intro j hj x hx
          omega

theorem rankStep_ok (rows : List CompRow) (r : CompRow)
    (h : rankStep rows = Except.ok r) : firstMax rows = some r := by
  rw [rankStep] at h
  cases hs : sortDesc rows with
  | nil => rw [hs] at h; exact absurd h (by simp)
  | cons x t =>
    rw [hs] at h
    simp only [Except.ok.injEq] at h
    subst h
    have hh := sortDesc_head? rows
    rw [hs] at hh
    simpa using hh.symm

/-- C6: whenever the ranking step returns a best row, that row belongs to
the input, its `risk_adj` is maximal, and every row before it in input
order has strictly smaller `risk_adj` — ties are won by the earliest
row. -/
theorem C6_rank_max_earliest (rows : List CompRow) (r : CompRow)
    (h : rankStep rows = Except.ok r) :
    r ∈ rows ∧ (∀ x ∈ rows, x.risk_adj ≤ r.risk_adj) ∧
    ∃ i : ℕ, rows[i]? = some r ∧
      ∀ j < i, ∀ x, rows[j]? = some x → x.risk_adj < r.risk_adj :=
  firstMax_spec rows r (rankStep_ok rows r h)

/-- Witness for C6 on two concrete rows with ratios 1 and 2: the second
row is returned and is a member of the input. -/
theorem C6_rank_max_earliest_witness :
    rankStep [⟨"rolling_atm_puts", 0, 0, 0, 0, 0, 0, 1⟩,
              ⟨"rolling_otm_puts", 0, 0, 0, 0, 0, 0, 2⟩] =
      Except.ok ⟨"rolling_otm_puts", 0, 0, 0, 0, 0, 0, 2⟩ ∧
    (⟨"rolling_otm_puts", 0, 0, 0, 0, 0, 0, 2⟩ : CompRow) ∈
      [⟨"rolling_atm_puts", 0, 0, 0, 0, 0, 0, 1⟩,
       ⟨"rolling_otm_puts", 0, 0, 0, 0, 0, 0, 2⟩] :=
  ⟨by norm_num [rankStep, sortDesc, insDesc],
    (C6_rank_max_earliest _ _ (by norm_num [rankStep, sortDesc, insDesc])).1⟩

/-- C9: on an empty comparison list the flow produces the designated
error outcome (the "No strategy results returned." message of line 268),
never a row. -/
theorem C9_rank_empty :
    rankStep [] = Except.error "No strategy results returned." ∧
    (rankStep []).isOk = false :=
  ⟨rfl, rfl⟩

end Backtester
